import Mathlib

/-!
Shallow embedding of the SDSS-Retriever spectrum retrieval engine
(`src/retriever/abstract_retriever.py`, `src/retriever/asynchronous.py`,
`src/retriever/standard.py`) and proofs about it.

Conventions of the embedding:
* Python ints are `Nat` (plates, fibers, MJDs and data releases are
  non-negative in this domain).
* Exceptions are `Except`/`Option` values.
* External collaborators (the AstroQuery metadata lookup, the HTTP layer,
  `hashlib.md5`, the numpy scalar kernels `10 ** x` and `x ** -0.5`) are
  parameters of the definitions: the engine's logic is translated from the
  source, the collaborators stay abstract.
* Stateful behaviour (the `lru_cache` URL memo, the on-disk cache directory,
  call counters for the two kinds of network traffic) is explicit state
  passing over the structure `St`.
-/

namespace SDSSRetriever

/-- A `(plate, fiber, mjd)` request triple. -/
abbrev Key := Nat × Nat × Nat

/-! ## Input Normalizer: `AbstractRetriever._format_args_into_iterables`

The three positional arguments may each be a scalar `int` or a `list[int]`
(the `dict` / `DataFrame` call shapes re-enter this same three-argument
path, so it is the one modelled). -/

/-- One positional argument of `_format_args_into_iterables`: a scalar
`int` or a sequence of `int`. -/
inductive PyArg where
  | scalar (n : Nat)
  | seq (l : List Nat)
deriving DecidableEq

/-- The `if isinstance(x, int): x = (x,)` promotion at the top of
`_format_args_into_iterables`. -/
def PyArg.toSeq : PyArg → List Nat
  | .scalar n => [n]
  | .seq l => l

/-- The broadcast `f = lambda v: v if (len(v) == n_max) else repeat(v[0], n_max)`.
(`v[0]` is only ever evaluated on a length-1 sequence, because the assert has
already ruled every other short sequence out; `headD 0` is its total form.) -/
def broadcastTo (nmax : Nat) (v : List Nat) : List Nat :=
  if v.length = nmax then v else List.replicate nmax (v.headD 0)

/-- The `n_max` computation `max(map(len, (plate, fiber, mjd)))`. -/
def nMax (plate fiber mjd : PyArg) : Nat :=
  max plate.toSeq.length (max fiber.toSeq.length mjd.toSeq.length)

/-- Embeds `AbstractRetriever._format_args_into_iterables` (the three-argument path).
`Except.error ()` models the `AssertionError` raised by
`assert all(len(a) in (1, n_max) for a in (plate, fiber, mjd))` — the
condition the spec calls `InputShapeError`. -/
def format_args_into_iterables (plate fiber mjd : PyArg) :
    Except Unit (List Nat × List Nat × List Nat × Nat) :=
  let p := plate.toSeq
  let f := fiber.toSeq
  let m := mjd.toSeq
  let nmax := nMax plate fiber mjd
  if (p.length = 1 ∨ p.length = nmax) ∧ (f.length = 1 ∨ f.length = nmax) ∧
      (m.length = 1 ∨ m.length = nmax) then
    .ok (broadcastTo nmax p, broadcastTo nmax f, broadcastTo nmax m, nmax)
  else
    .error ()

/-- Models `zip(*loop[:3])` over the three broadcast sequences. -/
def zip3 (p f m : List Nat) : List Key := p.zip (f.zip m)

/-! ## The gather model

`asyncio.gather(*tasks)` runs all tasks concurrently and assembles the
result list positionally (slot `i` receives task `i`'s result), regardless
of the order in which tasks complete.  `runGather` makes the completion
order explicit: against a deterministic fetch layer each task's eventual
value is fixed, and the scheduler's only freedom is the order in which
results get recorded into their slots. -/

/-- Record the completion of task `i`: its value is written into slot `i`
of the positional result list. -/
def recordResult (results : List ρ) (slots : List (Option ρ)) (i : Nat) :
    List (Option ρ) :=
  match results[i]? with
  | some r => slots.set i (some r)
  | none => slots

/-- Run all tasks to completion in the given completion `order`, assembling
the result list positionally as `asyncio.gather` does. -/
def runGather (results : List ρ) (order : List Nat) : List (Option ρ) :=
  order.foldl (recordResult results) (List.replicate results.length none)

/-! ## Per-batch retrieval: `get_spectrum`

`AsyncSDSSRetriever.get_spectrum` builds one task per normalized request
(`tasks = list(map(f, zip(*loop[:3])))`) and awaits `gather(*tasks)`;
`SDSSRetriever.get_spectrum` is `map(func, _zip)` (materialised by
`__call__`'s `list(...)`).  Against a deterministic fetch layer both
denote the positional map of the per-key fetch over the request list —
for the async strategy this is proved from `runGather` for every
completion order in the theorem for claim C2. -/
def get_spectrum (fetch : Key → Option Data) (reqs : List Key) :
    List (Option Data) :=
  reqs.map fetch

/-! ## Batch Controller: `AsyncSDSSRetriever.__call__` -/

/-- Fuel-indexed core of `itertools.batched`: contiguous chunks of size at
most `B`, in order.  Structural recursion on the fuel keeps it
kernel-reducible; `batched` supplies fuel `l.length`, which is enough for
every `B ≥ 1` (the only widths `itertools.batched` accepts). -/
def batchedAux (B : Nat) : Nat → List α → List (List α)
  | 0, _ => []
  | _, [] => []
  | fuel + 1, l => l.take B :: batchedAux B fuel (l.drop B)

/-- Models `itertools.batched(l, B)` for `B ≥ 1`. -/
def batched (B : Nat) (l : List α) : List (List α) :=
  batchedAux B l.length l

/-- Embeds `AsyncSDSSRetriever.__call__`, translated statement by statement.

When `batch_size` is set and `N > batch_size`, the source iterates
`for args in batch_loop: out.extend(self(*args, leave_pbar=False))` —
each recursive call lands in the unbatched branch, i.e. is
`get_spectrum` on one chunk — and then executes
`return run(self.get_spectrum(*args, leave_pbar=leave_pbar))`.
At that point the loop variable `args` holds the LAST chunk and `out`
is never returned, so the batched path returns only the last chunk's
results and discards `out`.  The translation keeps the dead `out`
binding to mirror the source. -/
def async_call (fetch : Key → Option Data) (batchSize : Option Nat)
    (reqs : List Key) : List (Option Data) :=
  match batchSize with
  | some B =>
    if reqs.length > B then
      let chunks := batched B reqs
      let out := (chunks.map (get_spectrum fetch)).flatten
      let _ := out
      get_spectrum fetch (chunks.getLastD [])
    else
      get_spectrum fetch reqs
  | none => get_spectrum fetch reqs

/-! ## URL Resolver: `AbstractRetriever._get_url_to_spectrum`

The method consults `SDSS.query_specobj` (the external metadata
collaborator) and, from the single returned row, assembles the download
URL the way AstroQuery 0.4.11's `get_spectra_async` does: it fills a
`format_args` dictionary, optionally rewrites two of its path segments
depending on `data_release` and `run2d`, optionally rewrites the
`SPECTRA_URL_SUFFIX` template from plate-indexed to field/catalog-indexed
names, and formats the template. -/

/-- The raw `run2d` cell of a metadata row: `_parse_result` may hand back
`bytes`, a numpy/python integer, or `str` (AstroQuery issue 739). -/
inductive Run2dCell where
  | bytes (s : String)
  | intval (n : Nat)
  | strval (s : String)
deriving DecidableEq

/-- The `bytes`/`int`/`str` normalization at the top of the method:
`row['run2d'].decode()`, `str(row['run2d'])`, or the string itself. -/
def normalizeRun2d : Run2dCell → String
  | .bytes s => s
  | .intval n => toString n
  | .strval s => s

/-- One metadata row as used by the resolver.  `plate`/`fiberID` are
`Option` because the `try ... except KeyError` in the source tolerates
their absence (newer releases expose `fieldID`/`catalogID` instead). -/
structure MetaRow where
  run2d : Run2dCell
  mjd : Nat
  plate : Option Nat
  fiberID : Option Nat
  fieldID : Nat
  catalogID : Nat
deriving DecidableEq

/-- The identifier block of `format_args`: either `plate`/`fiber` (set when
both columns are present) or `fieldid`/`catalogid` (the `except KeyError`
branch). -/
inductive IdArgs where
  | plateFiber (plate fiber : Nat)
  | fieldCatalog (fieldid catalogid : Nat)
deriving DecidableEq

/-- The `format_args` dictionary of `_get_url_to_spectrum`. -/
structure FormatArgs where
  base : String
  dr : Nat
  redux_path : String
  run2d : String
  spectra_path : String
  mjd : Nat
  idargs : IdArgs
deriving DecidableEq

/-- Which filename template `linkstr` holds after the (possible) pair of
`replace` calls: AstroQuery's plate-indexed `SPECTRA_URL_SUFFIX`, or the
field/catalog-indexed rewrite of it. -/
inductive LinkScheme where
  | plateScheme
  | fieldScheme
deriving DecidableEq

/-- Value of `astroquery.sdss.conf.sas_baseurl` (external configuration constant). -/
def sas_baseurl : String := "https://data.sdss.org/sas"

/-- Digits-to-number for the regex groups. -/
def digitsToNat (ds : List Char) : Nat :=
  ds.foldl (fun a c => a * 10 + (c.toNat - '0'.toNat)) 0

/-- AstroQuery's `SDSS.PARSE_BOSS_RUN2D` regex
`v(?P<major>[0-9]+)_(?P<minor>[0-9]+)_(?P<bug>[0-9]+)` applied with
`.match` (prefix match, trailing characters allowed); yields the `major`
group on success. -/
def parseBossMajor (s : String) : Option Nat :=
  match s.toList with
  | 'v' :: rest =>
    let maj := rest.takeWhile Char.isDigit
    match rest.dropWhile Char.isDigit with
    | '_' :: rest2 =>
      let minor := rest2.takeWhile Char.isDigit
      match rest2.dropWhile Char.isDigit with
      | '_' :: rest3 =>
        let bug := rest3.takeWhile Char.isDigit
        if maj ≠ [] ∧ minor ≠ [] ∧ bug ≠ [] then some (digitsToNat maj)
        else none
      | _ => none
    | _ => none
  | _ => none

/-- The decision core of `_get_url_to_spectrum`, translated statement by
statement from the source: build `format_args`, then apply the
`data_release > 15` spectra-path rewrite, then the `data_release > 17`
redux-path substitution together with the `major > 5` template rewrite. -/
def specUrlParts (data_release : Nat) (row : MetaRow) :
    FormatArgs × LinkScheme :=
  let run2d := normalizeRun2d row.run2d
  let idargs :=
    match row.plate, row.fiberID with
    | some p, some f => IdArgs.plateFiber p f
    | _, _ => IdArgs.fieldCatalog row.fieldID row.catalogID
  let fa : FormatArgs :=
    { base := sas_baseurl
      dr := data_release
      redux_path := "sdss/spectro/redux"
      run2d := run2d
      spectra_path := "spectra"
      mjd := row.mjd
      idargs := idargs }
  let fa :=
    if data_release > 15 ∧ ¬(run2d = "26" ∨ run2d = "103" ∨ run2d = "104")
    then { fa with spectra_path := "spectra/full" }
    else fa
  if data_release > 17 then
    let fa := { fa with redux_path := "spectro/sdss/redux" }
    match parseBossMajor run2d with
    | some major =>
      if major > 5 then (fa, .fieldScheme) else (fa, .plateScheme)
    | none => (fa, .plateScheme)
  else
    (fa, .plateScheme)

/-- Left-pad with `'0'` to width `w`: the `{x:0>4d}` / `{x:04d}` /
`{x:0>11d}` format specs. -/
def pad0 (w : Nat) (n : Nat) : String :=
  let s := toString n
  String.mk (List.replicate (w - s.length) '0') ++ s

/-- Left-pad with spaces to width `w`: the `{x:5d}` format spec. -/
def padSp (w : Nat) (n : Nat) : String :=
  let s := toString n
  String.mk (List.replicate (w - s.length) ' ') ++ s

/-- Models `linkstr.format(**format_args)` for the two templates that can reach
the format call.  The plate template is AstroQuery 0.4.11's
`SPECTRA_URL_SUFFIX`; the field template is its image under the two
`replace` calls in the source.  (Python would raise `KeyError` if the
template mentioned an identifier block the dictionary lacks; the
identifiers are read with `getD 0` here, and no claim depends on that
corner.) -/
def renderUrl : FormatArgs × LinkScheme → String
  | (fa, .plateScheme) =>
    let plate := match fa.idargs with
      | .plateFiber p _ => p
      | .fieldCatalog fid _ => fid
    let fiber := match fa.idargs with
      | .plateFiber _ f => f
      | .fieldCatalog _ cid => cid
    fa.base ++ "/dr" ++ toString fa.dr ++ "/" ++ fa.redux_path ++ "/" ++
      fa.run2d ++ "/" ++ fa.spectra_path ++ "/" ++ pad0 4 plate ++
      "/spec-" ++ pad0 4 plate ++ "-" ++ toString fa.mjd ++ "-" ++
      pad0 4 fiber ++ ".fits"
  | (fa, .fieldScheme) =>
    let fieldid := match fa.idargs with
      | .plateFiber p _ => p
      | .fieldCatalog fid _ => fid
    let catalogid := match fa.idargs with
      | .plateFiber _ f => f
      | .fieldCatalog _ cid => cid
    fa.base ++ "/dr" ++ toString fa.dr ++ "/" ++ fa.redux_path ++ "/" ++
      fa.run2d ++ "/" ++ fa.spectra_path ++ "/" ++ pad0 4 fieldid ++ "p/" ++
      padSp 5 fa.mjd ++ "/spec-" ++ pad0 4 fieldid ++ "-" ++ padSp 5 fa.mjd ++
      "-" ++ pad0 11 catalogid ++ ".fits"

/-- The URL `_get_url_to_spectrum` returns for a resolved row. -/
def get_url_to_spectrum (data_release : Nat) (row : MetaRow) : String :=
  renderUrl (specUrlParts data_release row)

/-! ## The stateful engine

`Env` packages the deterministic external collaborators; `St` is the
mutable world the engine threads: the `lru_cache` memo of
`_get_url_to_spectrum` (modelled as an unbounded association list —
no claim exercises eviction), the cache directory, and counters for the
two kinds of network traffic (metadata queries and HTTP GETs). -/

/-- External collaborators, all deterministic for a given call. -/
structure Env (Data : Type) where
  /-- `SDSS.query_specobj`: zero rows (or any exception) is `none`;
  one row is `some row`. -/
  meta : Key → Option MetaRow
  /-- `self.data_release` (the retriever constructors always set it). -/
  dataRelease : Nat
  /-- `hashlib.md5(url.encode()).hexdigest()`. -/
  md5 : String → String
  /-- HTTP GET plus FITS decode for a URL: `none` collapses non-200
  status, timeout, connection error, and decode failure; `some data` is
  the decoded `(wavelength, flux, uncertainty)` payload. -/
  net : String → Option Data

/-- The engine's threaded state. -/
structure St (Data : Type) where
  /-- The `lru_cache` memo of `_get_url_to_spectrum`; a `some none` entry
  is a memoized resolution miss. -/
  urlMemo : List (Key × Option String)
  /-- The cache directory: file name to stored payload. -/
  files : List (String × Data)
  /-- Whether the cache directory exists yet. -/
  dirExists : Bool
  /-- Completed `SDSS.query_specobj` calls. -/
  metaCalls : Nat
  /-- Completed HTTP GETs. -/
  httpCalls : Nat
deriving DecidableEq

/-- Memoized `_get_url_to_spectrum`: on a memo miss it queries the
metadata collaborator (one network call, counted whether or not rows come
back), maps zero rows to `none`, and records the result — `lru_cache`
memoizes `None` returns too. -/
def getUrl (env : Env Data) (key : Key) (st : St Data) :
    Option String × St Data :=
  match st.urlMemo.lookup key with
  | some u => (u, st)
  | none =>
    match env.meta key with
    | none =>
      (none,
        { st with
          urlMemo := (key, none) :: st.urlMemo
          metaCalls := st.metaCalls + 1 })
    | some row =>
      (some (get_url_to_spectrum env.dataRelease row),
        { st with
          urlMemo :=
            (key, some (get_url_to_spectrum env.dataRelease row)) :: st.urlMemo
          metaCalls := st.metaCalls + 1 })

/-- Embeds `AbstractRetriever._create_cache_hash`: `None` if the URL is
unresolved, otherwise the md5 hex digest of the URL. -/
def create_cache_hash (env : Env Data) (key : Key) (st : St Data) :
    Option String × St Data :=
  match getUrl env key st with
  | (none, st) => (none, st)
  | (some u, st) => (some (env.md5 u), st)

/-- Python's `f"{hash_str}.h5"` on an `Optional[str]`: `None` stringifies
to `"None"`. -/
def pyFStr : Option String → String
  | none => "None"
  | some s => s

/-- The cache file name both `_get_from_cache` and `_add_to_cache` build:
`f"{hash_str}.h5"`. -/
def cacheFileName (h : Option String) : String := pyFStr h ++ ".h5"

/-- Embeds `AbstractRetriever._get_from_cache`: build the file name from the
cache hash and read the file if it exists. -/
def get_from_cache (env : Env Data) (key : Key) (st : St Data) :
    Option Data × St Data :=
  match create_cache_hash env key st with
  | (h, st) =>
    match st.files.lookup (cacheFileName h) with
    | some d => (some d, st)
    | none => (none, st)

/-- Embeds `AbstractRetriever._add_to_cache`: build the file name, create the
cache directory if it does not exist yet, and write the file only if it
is absent (`if cache_file.exists(): return`). -/
def add_to_cache (env : Env Data) (key : Key) (data : Data) (st : St Data) :
    St Data :=
  match create_cache_hash env key st with
  | (h, st) =>
    let file := cacheFileName h
    let st := if st.dirExists then st else { st with dirExists := true }
    match st.files.lookup file with
    | some _ => st
    | none => { st with files := (file, data) :: st.files }

/-- Embeds `AsyncSDSSRetriever.fetch_spectrum` for one key: cache first, then URL
resolution, then (inside the semaphore block) the HTTP GET, decode,
write-through and return.  Every failure branch of the `try` collapses to
`none`. -/
def fetch_spectrum (env : Env Data) (key : Key) (st : St Data) :
    Option Data × St Data :=
  match get_from_cache env key st with
  | (some d, st) => (some d, st)
  | (none, st) =>
    match getUrl env key st with
    | (none, st) => (none, st)
    | (some u, st) =>
      let st := { st with httpCalls := st.httpCalls + 1 }
      match env.net u with
      | none => (none, st)
      | some data => (some data, add_to_cache env key data st)

/-! ## The concurrency limiter of the async strategy

`AsyncSDSSRetriever.semaphore` is declared as a `@property` whose body is
`return Semaphore(self.max_concurrent)`: every attribute access evaluates
the body and hands back a freshly constructed semaphore object.
`fetch_spectrum`'s `async with self.semaphore:` therefore acquires a
permit of a semaphore no other task can see.  `LimiterState` tracks the
permit counts of every semaphore object created so far, and how many
fetch tasks currently hold a permit. -/

structure LimiterState where
  /-- Available permits of each `Semaphore` object created so far. -/
  permits : List Nat
  /-- Fetch tasks currently inside an `async with ...semaphore` block. -/
  holders : Nat
deriving DecidableEq

/-- Reading the `semaphore` property: a fresh `Semaphore(max_concurrent)`
object is constructed; its index and the new state are returned. -/
def semaphoreProperty (max_concurrent : Nat) (st : LimiterState) :
    Nat × LimiterState :=
  (st.permits.length, { st with permits := st.permits ++ [max_concurrent] })

/-- Models `await sem.acquire()` on semaphore object `i`: succeeds (decrementing
the permit count and entering the block) only if a permit is available;
otherwise the task blocks (`none`). -/
def semAcquire (i : Nat) (st : LimiterState) : Option LimiterState :=
  match st.permits.get? i with
  | some (n + 1) =>
    some { permits := st.permits.set i n, holders := st.holders + 1 }
  | _ => none

/-- One fetch task reaching `async with self.semaphore:` — a property
read followed by an acquire on the object it produced. -/
def fetchEnter (max_concurrent : Nat) (st : LimiterState) :
    Option LimiterState :=
  match semaphoreProperty max_concurrent st with
  | (i, st) => semAcquire i st

/-- For contrast, the behaviour the spec describes: all tasks acquire the
same shared semaphore object, created once before the tasks start. -/
def sharedFetchEnter (i : Nat) (st : LimiterState) : Option LimiterState :=
  semAcquire i st

/-! ## Decode transform: `AbstractRetriever._translate_hdul`

The method returns
`(10**data.loglam, data.flux, where(data.ivar > 0, data.ivar, nan)**-0.5)`.
Sample values are modelled as exact rationals plus an explicit NaN
(`NpVal`); the two external numpy scalar kernels `10 ** x` and
`x ** -0.5` are parameters (`pow10`, `powNegHalf`), since their
floating-point arithmetic is not the engine's logic.  All three array
operations are total — nothing raises on non-positive `ivar`. -/

/-- A numpy float64 sample: a finite value or NaN. -/
inductive NpVal where
  | num (q : ℚ)
  | nan
deriving DecidableEq

/-- Models `numpy.where(ivar > 0, ivar, nan)`, elementwise. -/
def wherePos (ivar : List ℚ) : List NpVal :=
  ivar.map fun v => if 0 < v then NpVal.num v else NpVal.nan

/-- Models `arr ** -0.5` elementwise on an array that may hold NaNs; NaN
propagates (`nan ** -0.5` is `nan`, no exception). -/
def powNegHalfArr (powNegHalf : ℚ → ℚ) (l : List NpVal) : List NpVal :=
  l.map fun x =>
    match x with
    | NpVal.num q => NpVal.num (powNegHalf q)
    | NpVal.nan => NpVal.nan

/-- Embeds `AbstractRetriever._translate_hdul` on the three columns of
`hdul[1].data`. -/
def translate_hdul (pow10 powNegHalf : ℚ → ℚ)
    (loglam flux ivar : List ℚ) : List ℚ × List ℚ × List NpVal :=
  (loglam.map pow10, flux, powNegHalfArr powNegHalf (wherePos ivar))

/-! ## Concrete instances used by the theorems below -/

/-- Five requests, as in the spec's batching-equivalence scenario. -/
def reqs5 : List Key :=
  [(751, 280, 52251), (752, 150, 52252), (753, 100, 52253),
   (754, 200, 52254), (755, 300, 52255)]

/-- A metadata row whose `run2d` is the BOSS version string
`"v5_13_2"`. -/
def rowV513 : MetaRow :=
  { run2d := .strval "v5_13_2", mjd := 52251, plate := some 751,
    fiberID := some 280, fieldID := 751, catalogID := 123 }

/-- An environment whose metadata collaborator returns zero rows for
every key. -/
def envMiss : Env Nat :=
  { meta := fun _ => none, dataRelease := 17, md5 := fun s => s,
    net := fun _ => none }

/-- An environment that resolves exactly the key `(751, 280, 52251)` to
`rowV513` and whose network layer always yields the payload `99`. -/
def envHit : Env Nat :=
  { meta := fun k => if k = (751, 280, 52251) then some rowV513 else none,
    dataRelease := 17, md5 := fun s => s, net := fun _ => some 99 }

/-- The fresh engine state: empty memo, empty cache, no cache directory,
no network traffic yet. -/
def stEmpty : St Nat :=
  { urlMemo := [], files := [], dirExists := false, metaCalls := 0,
    httpCalls := 0 }

/-- A state in which two distinct keys have both been memoized as
resolution misses. -/
def stTwoMisses : St Nat :=
  { urlMemo := [((1, 2, 3), none), ((4, 5, 6), none)], files := [],
    dirExists := false, metaCalls := 2, httpCalls := 0 }

/-- A state in which the null-hash cache file already exists (with
payload `7`) while the key `(1, 2, 3)` is memoized as a miss. -/
def stNoneFile : St Nat :=
  { urlMemo := [((1, 2, 3), none)], files := [("None.h5", 7)],
    dirExists := false, metaCalls := 1, httpCalls := 0 }

/-! ## Helper lemmas -/

theorem lookup_cons_self {α β : Type} [BEq α] [LawfulBEq α] (a : α) (b : β)
    (l : List (α × β)) : List.lookup a ((a, b) :: l) = some b := by
  simp [List.lookup]

/-- A memo hit leaves `getUrl` pure. -/
theorem getUrl_memo_hit {Data : Type} (env : Env Data) (key : Key)
    (st : St Data) (v : Option String) (h : st.urlMemo.lookup key = some v) :
    getUrl env key st = (v, st) := by
  unfold getUrl
  rw [h]

/-- After any `getUrl` call the memo holds the returned resolution. -/
theorem getUrl_memo_after {Data : Type} (env : Env Data) (key : Key)
    (st st' : St Data) (v : Option String)
    (h : getUrl env key st = (v, st')) :
    st'.urlMemo.lookup key = some v := by
  unfold getUrl at h
  cases hm : st.urlMemo.lookup key with
  | some u => rw [hm] at h; cases h; exact hm
  | none =>
    rw [hm] at h
    cases hq : env.meta key with
    | none => rw [hq] at h; cases h; exact lookup_cons_self ..
    | some row => rw [hq] at h; cases h; exact lookup_cons_self ..

/-- A repeat `getUrl` for the same key is a memo hit: same value, no
state change. -/
theorem getUrl_idem {Data : Type} (env : Env Data) (key : Key)
    (st st' : St Data) (v : Option String)
    (h : getUrl env key st = (v, st')) :
    getUrl env key st' = (v, st') :=
  getUrl_memo_hit _ _ _ _ (getUrl_memo_after _ _ _ _ _ h)

/-- Frame: `getUrl` touches only the memo and the metadata counter. -/
theorem getUrl_frame {Data : Type} (env : Env Data) (key : Key)
    (st : St Data) :
    (getUrl env key st).2.files = st.files ∧
    (getUrl env key st).2.dirExists = st.dirExists ∧
    (getUrl env key st).2.httpCalls = st.httpCalls := by
  unfold getUrl
  cases hm : st.urlMemo.lookup key with
  | some u => exact ⟨rfl, rfl, rfl⟩
  | none => cases hq : env.meta key <;> exact ⟨rfl, rfl, rfl⟩

/-- Characterizes `create_cache_hash` in terms of `getUrl`. -/
theorem create_cache_hash_eq {Data : Type} (env : Env Data) (key : Key)
    (st : St Data) :
    create_cache_hash env key st =
      ((getUrl env key st).1.map env.md5, (getUrl env key st).2) := by
  unfold create_cache_hash
  cases h : getUrl env key st with
  | mk u st' => cases u <;> simp

/-- Characterizes `get_from_cache` in terms of `getUrl`. -/
theorem get_from_cache_eq {Data : Type} (env : Env Data) (key : Key)
    (st : St Data) :
    get_from_cache env key st =
      ((getUrl env key st).2.files.lookup
          (cacheFileName ((getUrl env key st).1.map env.md5)),
        (getUrl env key st).2) := by
  unfold get_from_cache
  rw [create_cache_hash_eq]
  cases h : (getUrl env key st).2.files.lookup
      (cacheFileName ((getUrl env key st).1.map env.md5)) <;> simp [h]

/-- Updating `httpCalls` or `dirExists` leaves the memo unchanged. -/
theorem memo_update_http {Data : Type} (st : St Data) (n : Nat) :
    ({ st with httpCalls := n } : St Data).urlMemo = st.urlMemo := rfl

/-- A cache hit — memoized URL plus an existing cache file — makes
`fetch_spectrum` return the stored payload with no state change. -/
theorem fetch_spectrum_cached {Data : Type} (env : Env Data) (key : Key)
    (st : St Data) (u : Option String) (d : Data)
    (hm : st.urlMemo.lookup key = some u)
    (hf : st.files.lookup (cacheFileName (u.map env.md5)) = some d) :
    fetch_spectrum env key st = (some d, st) := by
  have hhit := getUrl_memo_hit env key st u hm
  unfold fetch_spectrum
  rw [get_from_cache_eq env key st, hhit]
  simp only
  rw [hf]

/-- Writing a new file: with a memoized URL and no existing file,
`_add_to_cache` prepends the file and touches nothing else in the
memo. -/
theorem add_to_cache_miss_files {Data : Type} (env : Env Data) (key : Key)
    (data : Data) (st : St Data) (u : Option String)
    (hm : st.urlMemo.lookup key = some u)
    (hf : st.files.lookup (cacheFileName (u.map env.md5)) = none) :
    (add_to_cache env key data st).urlMemo = st.urlMemo ∧
    (add_to_cache env key data st).files =
      (cacheFileName (u.map env.md5), data) :: st.files := by
  have hhit := getUrl_memo_hit env key st u hm
  unfold add_to_cache
  rw [create_cache_hash_eq, hhit]
  simp only
  by_cases hd : st.dirExists <;> simp [hd, hf]

/-! ## Claim C1 -/

/-- C1: the claim says that for `N > B` the async retriever's `__call__`
returns the concatenation of the per-chunk results in input order,
identical to the unbatched run.  Against the deterministic fetch layer
`fun r => some r`, five requests with batch size 2 instead return only
the single result of the LAST chunk: the source extends `out` with every
chunk's results but never returns `out`, and the final
`return run(self.get_spectrum(*args, ...))` re-uses the loop variable
`args`, which by then holds the last chunk.  The unbatched run (batch
size `None`) returns all five results. -/
theorem c1_batched_call_returns_only_last_chunk :
    async_call (fun r => some r) (some 2) reqs5 = [some (755, 300, 52255)] ∧
    async_call (fun r => some r) none reqs5 = reqs5.map some ∧
    (async_call (fun r => some r) (some 2) reqs5).length = 1 ∧
    reqs5.length = 5 ∧
    async_call (fun r => some r) (some 2) reqs5 ≠
      async_call (fun r => some r) none reqs5 := by
  decide

/-! ## Claim C3 -/

/-- C3: the claim says every network fetch acquires a slot from a single
concurrency limiter shared by all fetch tasks, so that never more than
`max_concurrent` fetches hold a slot simultaneously.  In the source,
`semaphore` is a property that constructs a FRESH `Semaphore` object on
every access, so each fetch acquires its own private semaphore: with
`max_concurrent = 1`, two fetch tasks both enter their `async with`
blocks and two slots are held at once.  Had the two tasks shared the one
semaphore object (as the spec describes), the second acquire would
block. -/
theorem c3_semaphore_property_is_not_shared :
    ((fetchEnter 1 { permits := [], holders := 0 }).bind
        (fetchEnter 1)).map LimiterState.holders = some 2 ∧
    (fetchEnter 1 { permits := [], holders := 0 }).bind
        (sharedFetchEnter 0) = none := by
  decide

/-- A memo miss combined with a zero-row metadata answer: one metadata
query, a memoized `none`, and nothing else. -/
theorem getUrl_miss {Data : Type} (env : Env Data) (key : Key) (st : St Data)
    (hmeta : env.meta key = none) (hmemo : st.urlMemo.lookup key = none) :
    getUrl env key st =
      (none,
        { st with
          urlMemo := (key, none) :: st.urlMemo
          metaCalls := st.metaCalls + 1 }) := by
  unfold getUrl; rw [hmemo, hmeta]

/-- Every broadcast output has length `n_max`. -/
theorem broadcastTo_length (n : Nat) (v : List Nat) :
    (broadcastTo n v).length = n := by
  unfold broadcastTo
  split <;> simp_all

/-- The `i`-th broadcast element: the single element for a length-1
input, the `i`-th input element otherwise. -/
theorem broadcastTo_getElem? (n : Nat) (v : List Nat)
    (hv : v.length = 1 ∨ v.length = n) (i : Nat) (hi : i < n) :
    (broadcastTo n v)[i]? = if v.length = 1 then v[0]? else v[i]? := by
  unfold broadcastTo
  rcases hv with h1 | hn
  · obtain ⟨a, rfl⟩ := List.length_eq_one.mp h1
    simp only [List.length_singleton]
    by_cases h : 1 = n
    · have : i = 0 := by omega
      simp [h, this]
    · simp [h, List.getElem?_replicate, hi]
  · rw [if_pos hn]
    by_cases h1 : v.length = 1
    · have : i = 0 := by omega
      simp [h1, this]
    · simp [h1]

/-- Bound: `n_max` dominates all three input lengths. -/
theorem nMax_bounds (plate fiber mjd : PyArg) :
    plate.toSeq.length ≤ nMax plate fiber mjd ∧
    fiber.toSeq.length ≤ nMax plate fiber mjd ∧
    mjd.toSeq.length ≤ nMax plate fiber mjd := by
  unfold nMax
  omega

/-! ## Claim C2 -/

theorem recordResult_length (results : List ρ) (slots : List (Option ρ))
    (j : Nat) : (recordResult results slots j).length = slots.length := by
  unfold recordResult
  cases results[j]? <;> simp

/-- Slot `i` after a run of completions: written (with task `i`'s own
value — whenever it was written) exactly when `i` completed, untouched
otherwise. -/
theorem runGather_foldl_getElem? (results : List ρ) :
    ∀ (order : List Nat) (slots : List (Option ρ)),
      slots.length = results.length → ∀ i : Nat,
      (order.foldl (recordResult results) slots)[i]? =
        if i ∈ order ∧ i < results.length then results[i]?.map some
        else slots[i]? := by
  intro order
  induction order with
  | nil =>
    intro slots hlen i
    simp
  | cons j rest ih =>
    intro slots hlen i
    rw [List.foldl_cons, ih _ ((recordResult_length ..).trans hlen) i]
    by_cases hmem : i ∈ rest ∧ i < results.length
    · rw [if_pos hmem, if_pos ⟨List.mem_cons_of_mem _ hmem.1, hmem.2⟩]
    · rw [if_neg hmem]
      unfold recordResult
      cases hj : results[j]? with
      | none =>
        rw [if_neg]
        rintro ⟨hin, hlt⟩
        rcases List.mem_cons.mp hin with heq | hin'
        · rw [List.getElem?_eq_none_iff] at hj
          omega
        · exact hmem ⟨hin', hlt⟩
      | some r =>
        have hjlt : j < results.length := by
          by_contra hc
          rw [List.getElem?_eq_none_iff.mpr (by omega)] at hj
          cases hj
        by_cases hij : i = j
        · rw [if_pos ⟨hij ▸ List.mem_cons_self j rest, hij ▸ hjlt⟩, hij,
            List.getElem?_set_self (by omega), hj]
          rfl
        · rw [List.getElem?_set_ne (Ne.symm hij), if_neg]
          rintro ⟨hin, hlt⟩
          rcases List.mem_cons.mp hin with heq | hin'
          · exact hij heq
          · exact hmem ⟨hin', hlt⟩

/-- If the completion order covers every task index (as any permutation
of them does), gather's positionally assembled output is the positional
map of the task results — independent of the order itself. -/
theorem runGather_eq_map_some (results : List ρ) (order : List Nat)
    (h : ∀ i : Nat, i < results.length ↔ i ∈ order) :
    runGather results order = results.map some := by
  apply List.ext_getElem?
  intro i
  rw [runGather, runGather_foldl_getElem? results order _ (by simp) i]
  by_cases hi : i < results.length
  · rw [if_pos ⟨(h i).mp hi, hi⟩, List.getElem?_map]
  · rw [if_neg (by tauto), List.getElem?_replicate, if_neg (by omega)]
    rw [eq_comm, List.getElem?_eq_none_iff]
    simp
    omega

/-- A normalization success hands back three sequences of length `N`. -/
theorem format_args_ok_lengths (plate fiber mjd : PyArg)
    (lp lf lm : List Nat) (N : Nat)
    (h : format_args_into_iterables plate fiber mjd = .ok (lp, lf, lm, N)) :
    lp.length = N ∧ lf.length = N ∧ lm.length = N := by
  unfold format_args_into_iterables at h
  dsimp only at h
  split at h
  · simp only [Except.ok.injEq, Prod.mk.injEq] at h
    obtain ⟨h1, h2, h3, h4⟩ := h
    subst h1; subst h2; subst h3; subst h4
    exact ⟨broadcastTo_length .., broadcastTo_length .., broadcastTo_length ..⟩
  · cases h

/-- C2: positional alignment.  For every input accepted by normalization
with length `N`, and EVERY completion order of the `N` fetch tasks
(`gather` assembles slots positionally, so any permutation of the task
indices yields the same output), the retrieval result list has exactly
`N` elements and its `i`-th element is the per-key fetch result of the
`i`-th normalized request — `get_spectrum` is also literally the
positional map the process-pool strategy (`SDSSRetriever.get_spectrum`)
computes, so both strategies return the same aligned list. -/
theorem c2_result_positionally_aligned {Data : Type} (fetch : Key → Option Data)
    (plate fiber mjd : PyArg) (lp lf lm : List Nat) (N : Nat)
    (h : format_args_into_iterables plate fiber mjd = .ok (lp, lf, lm, N))
    (order : List Nat) (hord : order.Perm (List.range N)) :
    runGather (get_spectrum fetch (zip3 lp lf lm)) order =
      (get_spectrum fetch (zip3 lp lf lm)).map some ∧
    (get_spectrum fetch (zip3 lp lf lm)).length = N ∧
    (∀ i : Nat, (get_spectrum fetch (zip3 lp lf lm))[i]? =
      (zip3 lp lf lm)[i]?.map fetch) := by
  obtain ⟨h1, h2, h3⟩ := format_args_ok_lengths plate fiber mjd lp lf lm N h
  have hlen : (get_spectrum fetch (zip3 lp lf lm)).length = N := by
    simp [get_spectrum, zip3, h1, h2, h3]
  refine ⟨?_, hlen, fun i => by simp [get_spectrum, List.getElem?_map]⟩
  apply runGather_eq_map_some
  intro i
  rw [hlen, hord.mem_iff, List.mem_range]

/-- C2 witness: the two-key input `[(751, 280, 52251), (752, 150, 52252)]`
against the identity fetch layer, with the reversed completion order
`[1, 0]`: the assembled result list has both elements in input order. -/
theorem c2_result_positionally_aligned_witness :
    runGather (get_spectrum (fun k => some k)
        (zip3 [751, 752] [280, 150] [52251, 52252])) [1, 0] =
      (get_spectrum (fun k => some k)
        (zip3 [751, 752] [280, 150] [52251, 52252])).map some ∧
    (get_spectrum (fun k => some k)
        (zip3 [751, 752] [280, 150] [52251, 52252])).length = 2 ∧
    (∀ i : Nat, (get_spectrum (fun k => some k)
        (zip3 [751, 752] [280, 150] [52251, 52252]))[i]? =
      (zip3 [751, 752] [280, 150] [52251, 52252])[i]?.map (fun k => some k)) :=
  c2_result_positionally_aligned (fun k => some k) (PyArg.seq [751, 752])
    (PyArg.seq [280, 150]) (PyArg.seq [52251, 52252])
    [751, 752] [280, 150] [52251, 52252] 2 (by rfl) [1, 0] (by decide)

/-! ## Claim C4 -/

/-- C4: after a first successful retrieval of a key (which leaves the
URL memoized and — whether the success was a cache hit or a fresh
fetch-and-write-through — the cache entry present), repeating the
retrieval of the same key returns the identical payload with the state
completely unchanged: in particular zero additional metadata queries and
zero additional HTTP GETs. -/
theorem c4_repeat_retrieval_is_cached {Data : Type} (env : Env Data)
    (key : Key) (st0 st1 : St Data) (d : Data)
    (h : fetch_spectrum env key st0 = (some d, st1)) :
    fetch_spectrum env key st1 = (some d, st1) ∧
    (fetch_spectrum env key st1).2.metaCalls = st1.metaCalls ∧
    (fetch_spectrum env key st1).2.httpCalls = st1.httpCalls := by
  have hpair : getUrl env key st0 =
      ((getUrl env key st0).1, (getUrl env key st0).2) := rfl
  have main : fetch_spectrum env key st1 = (some d, st1) := by
    unfold fetch_spectrum at h
    split at h
    next x d' stA heq =>
      injection h with h1 h2
      injection h1 with h1
      subst h1; subst h2
      have hfc := get_from_cache_eq env key st0
      rw [heq] at hfc
      injection hfc with hl hst
      have hg : getUrl env key st0 = ((getUrl env key st0).1, stA) := by
        rw [← hst] at hpair; exact hpair
      have hm := getUrl_memo_after env key st0 stA (getUrl env key st0).1 hg
      refine fetch_spectrum_cached env key stA (getUrl env key st0).1 d' hm ?_
      rw [← hst] at hl
      exact hl.symm
    next x stA heq =>
      have hfc := get_from_cache_eq env key st0
      rw [heq] at hfc
      injection hfc with hl hst
      have hg : getUrl env key st0 = ((getUrl env key st0).1, stA) := by
        rw [← hst] at hpair; exact hpair
      have hidem := getUrl_idem env key st0 stA (getUrl env key st0).1 hg
      split at h
      next st' hequ =>
        exact absurd h (by simp)
      next u stB hequ =>
        rw [hidem] at hequ
        injection hequ with hv hBA
        split at h
        next heqn => exact absurd h (by simp)
        next data heqn =>
          injection h with h1 h2
          injection h1 with h1
          subst h1
          have hmA : stA.urlMemo.lookup key = some (some u) := by
            have := getUrl_memo_after env key st0 stA (getUrl env key st0).1 hg
            rw [hv] at this; exact this
          have hmH : ({ stB with httpCalls := stB.httpCalls + 1 } :
              St Data).urlMemo.lookup key = some (some u) := by
            rw [← hBA]; exact hmA
          have hfH : ({ stB with httpCalls := stB.httpCalls + 1 } :
              St Data).files.lookup
                (cacheFileName ((some u).map env.md5)) = none := by
            show stB.files.lookup (cacheFileName (some (env.md5 u))) = none
            rw [← hBA, hst]
            rw [hv] at hl
            exact hl.symm
          have hadd := add_to_cache_miss_files env key data
            { stB with httpCalls := stB.httpCalls + 1 } (some u) hmH hfH
          rw [h2] at hadd
          refine fetch_spectrum_cached env key st1 (some u) data ?_ ?_
          · rw [hadd.1, ← hBA]; exact hmA
          · rw [hadd.2]
            exact lookup_cons_self ..
  refine ⟨main, ?_, ?_⟩ <;> rw [main]

/-- C4 witness: against `envHit`, the first retrieval of
`(751, 280, 52251)` from the empty state succeeds with payload `99`;
the retrieval repeated from the resulting state returns `(some 99)` and
that state unchanged. -/
theorem c4_repeat_retrieval_is_cached_witness :
    fetch_spectrum envHit (751, 280, 52251)
        ((fetch_spectrum envHit (751, 280, 52251) stEmpty).2) =
      (some 99, (fetch_spectrum envHit (751, 280, 52251) stEmpty).2) :=
  (c4_repeat_retrieval_is_cached envHit (751, 280, 52251) stEmpty
    (fetch_spectrum envHit (751, 280, 52251) stEmpty).2 99 (by decide)).1

/-! ## Claim C5 -/

/-- C5: for a key not yet memoized whose metadata lookup returns zero
rows (and no stray null-hash cache file is present), the retrieval result
is `none` without raising, no HTTP GET is issued (`httpCalls`
unchanged), exactly the one metadata query of this first resolution is
made, the miss is memoized as `some none`, and a repeat URL lookup is a
pure memo hit — it does not re-query the metadata collaborator or change
the state. -/
theorem c5_resolution_miss_memoized {Data : Type} (env : Env Data)
    (key : Key) (st : St Data)
    (hmeta : env.meta key = none)
    (hmemo : st.urlMemo.lookup key = none)
    (hfile : st.files.lookup (cacheFileName none) = none) :
    (fetch_spectrum env key st).1 = none ∧
    (fetch_spectrum env key st).2.httpCalls = st.httpCalls ∧
    (fetch_spectrum env key st).2.metaCalls = st.metaCalls + 1 ∧
    (fetch_spectrum env key st).2.urlMemo.lookup key = some none ∧
    getUrl env key (fetch_spectrum env key st).2 =
      (none, (fetch_spectrum env key st).2) := by
  have hg := getUrl_miss env key st hmeta hmemo
  have hm2 : ({ st with
      urlMemo := (key, none) :: st.urlMemo
      metaCalls := st.metaCalls + 1 } : St Data).urlMemo.lookup key =
      some none := lookup_cons_self ..
  have hg2 := getUrl_memo_hit env key _ none hm2
  have hfetch : fetch_spectrum env key st =
      (none,
        { st with
          urlMemo := (key, none) :: st.urlMemo
          metaCalls := st.metaCalls + 1 }) := by
    unfold fetch_spectrum
    rw [get_from_cache_eq, hg]
    simp [hfile, hg2]
  rw [hfetch]
  exact ⟨rfl, rfl, rfl, hm2, hg2⟩

/-- C5 witness: against the all-miss environment `envMiss` and the fresh
state, retrieving `(1, 2, 3)` returns `none` with zero HTTP GETs, one
metadata query, the miss memoized, and an idempotent repeat lookup. -/
theorem c5_resolution_miss_memoized_witness :
    (fetch_spectrum envMiss (1, 2, 3) stEmpty).1 = none ∧
    (fetch_spectrum envMiss (1, 2, 3) stEmpty).2.httpCalls =
      stEmpty.httpCalls ∧
    (fetch_spectrum envMiss (1, 2, 3) stEmpty).2.metaCalls =
      stEmpty.metaCalls + 1 ∧
    (fetch_spectrum envMiss (1, 2, 3) stEmpty).2.urlMemo.lookup (1, 2, 3) =
      some none ∧
    getUrl envMiss (1, 2, 3) (fetch_spectrum envMiss (1, 2, 3) stEmpty).2 =
      (none, (fetch_spectrum envMiss (1, 2, 3) stEmpty).2) :=
  c5_resolution_miss_memoized envMiss (1, 2, 3) stEmpty (by decide)
    (by decide) (by decide)

/-! ## Claim C7 -/

/-- C7: `_add_to_cache` is an idempotent create.  If the cache file for
the key's hash already exists, the write leaves the file table exactly as
it was (silent no-op, never clobbers); a write (re-)creates the cache
directory, while the read path (`_get_from_cache`) and URL resolution
never do — the directory only comes into existence on the first
write. -/
theorem c7_put_is_idempotent_create {Data : Type} (env : Env Data)
    (key : Key) (data : Data) (st : St Data) (d0 : Data)
    (hex : st.files.lookup
        (cacheFileName (create_cache_hash env key st).1) = some d0) :
    (add_to_cache env key data st).files = st.files ∧
    (add_to_cache env key data st).dirExists = true ∧
    (get_from_cache env key st).2.dirExists = st.dirExists ∧
    (getUrl env key st).2.dirExists = st.dirExists := by
  have hframe := getUrl_frame env key st
  have hex' : st.files.lookup
      (cacheFileName ((getUrl env key st).1.map env.md5)) = some d0 := by
    rw [create_cache_hash_eq] at hex; exact hex
  have hadd : (add_to_cache env key data st).files = st.files ∧
      (add_to_cache env key data st).dirExists = true := by
    unfold add_to_cache
    rw [create_cache_hash_eq]
    simp only
    by_cases hd : (getUrl env key st).2.dirExists <;>
      simp [hd, hframe.1, hframe.2.1, hex']
  refine ⟨hadd.1, hadd.2, ?_, hframe.2.1⟩
  rw [get_from_cache_eq]
  exact hframe.2.1

/-- C7 witness: in `stNoneFile` the hash of the memoized-miss key
`(1, 2, 3)` is `None` and the file `None.h5` exists with payload `7`;
writing payload `55` for that key changes no file and creates the
directory, and the read path leaves the directory flag alone. -/
theorem c7_put_is_idempotent_create_witness :
    (add_to_cache envMiss (1, 2, 3) 55 stNoneFile).files =
      stNoneFile.files ∧
    (add_to_cache envMiss (1, 2, 3) 55 stNoneFile).dirExists = true ∧
    (get_from_cache envMiss (1, 2, 3) stNoneFile).2.dirExists =
      stNoneFile.dirExists ∧
    (getUrl envMiss (1, 2, 3) stNoneFile).2.dirExists =
      stNoneFile.dirExists :=
  c7_put_is_idempotent_create envMiss (1, 2, 3) 55 stNoneFile 7 (by decide)

/-! ## Claim C6 -/

/-- C6 counterexample: the claim's first clause says that for
`dataRelease ≤ 7` the resolver uses the legacy run identifier `"26"`.
The resolver has no such branch — `run2d` always comes from the metadata
row.  At `dataRelease = 7` with a row whose `run2d` cell is the string
`"v5_13_2"` (the concrete input refuting the universally quantified
clause), the resolver's run identifier is `"v5_13_2"`, not `"26"`. -/
theorem c6_counterexample :
    ¬ (∀ (dr : Nat) (row : MetaRow), dr ≤ 7 →
        (specUrlParts dr row).1.run2d = "26") := by
  intro h
  exact absurd (h 7 rowV513 (by decide)) (by decide)

/-- C6 amended: the decision table the resolver actually implements.
The run identifier is taken from the metadata row at EVERY data release
(for legacy releases the metadata itself carries `"26"`; the resolver
never substitutes it).  If `dataRelease > 15` and the run identifier is
not in the fixed legacy set `{26, 103, 104}`, the spectra path segment
is the alternate `"spectra/full"`.  If `dataRelease > 17` the base redux
path becomes `"spectro/sdss/redux"`, and additionally, when the run
identifier matches the BOSS pattern `v<major>_<minor>_<bug>` with
`major > 5`, the filename scheme switches from plate-indexed to
field/catalog-indexed names. -/
theorem c6_amended_decision_table (dr : Nat) (row : MetaRow) :
    (specUrlParts dr row).1.run2d = normalizeRun2d row.run2d ∧
    (specUrlParts dr row).1.spectra_path =
      (if dr > 15 ∧ ¬(normalizeRun2d row.run2d = "26" ∨
          normalizeRun2d row.run2d = "103" ∨ normalizeRun2d row.run2d = "104")
       then "spectra/full" else "spectra") ∧
    (specUrlParts dr row).1.redux_path =
      (if dr > 17 then "spectro/sdss/redux" else "sdss/spectro/redux") ∧
    (specUrlParts dr row).2 =
      (if dr > 17 ∧ (parseBossMajor (normalizeRun2d row.run2d)).getD 0 > 5
       then LinkScheme.fieldScheme else LinkScheme.plateScheme) := by
  unfold specUrlParts
  rcases hp : parseBossMajor (normalizeRun2d row.run2d) with _ | major <;>
    simp only [hp, Option.getD] <;> split_ifs <;> simp_all

/-! ## Claim C8 -/

/-- C8: input normalization.  For every valid input shape — scalar
triple, three equal-length sequences, or mixes where one or two inputs
have length 1 (each length is `1` or `n_max`) — normalization yields
exactly `N = n_max` aligned triples, each short input repeated to length
`N` and each long input passed through positionally; and it fails with
the shape error (`InputShapeError` in the spec, the `assert` in the
source) whenever two of the three inputs have different lengths that are
both greater than 1. -/
theorem c8_normalization_broadcast (plate fiber mjd : PyArg) :
    ((plate.toSeq.length = 1 ∨ plate.toSeq.length = nMax plate fiber mjd) →
     (fiber.toSeq.length = 1 ∨ fiber.toSeq.length = nMax plate fiber mjd) →
     (mjd.toSeq.length = 1 ∨ mjd.toSeq.length = nMax plate fiber mjd) →
     ∃ lp lf lm,
       format_args_into_iterables plate fiber mjd =
         .ok (lp, lf, lm, nMax plate fiber mjd) ∧
       lp.length = nMax plate fiber mjd ∧
       lf.length = nMax plate fiber mjd ∧
       lm.length = nMax plate fiber mjd ∧
       (∀ i : Nat, i < nMax plate fiber mjd →
         lp[i]? = (if plate.toSeq.length = 1 then plate.toSeq[0]?
           else plate.toSeq[i]?) ∧
         lf[i]? = (if fiber.toSeq.length = 1 then fiber.toSeq[0]?
           else fiber.toSeq[i]?) ∧
         lm[i]? = (if mjd.toSeq.length = 1 then mjd.toSeq[0]?
           else mjd.toSeq[i]?))) ∧
    (((1 < plate.toSeq.length ∧ 1 < fiber.toSeq.length ∧
        plate.toSeq.length ≠ fiber.toSeq.length) ∨
      (1 < plate.toSeq.length ∧ 1 < mjd.toSeq.length ∧
        plate.toSeq.length ≠ mjd.toSeq.length) ∨
      (1 < fiber.toSeq.length ∧ 1 < mjd.toSeq.length ∧
        fiber.toSeq.length ≠ mjd.toSeq.length)) →
     format_args_into_iterables plate fiber mjd = .error ()) := by
  have hb := nMax_bounds plate fiber mjd
  constructor
  · intro hp hf hm
    refine ⟨broadcastTo (nMax plate fiber mjd) plate.toSeq,
      broadcastTo (nMax plate fiber mjd) fiber.toSeq,
      broadcastTo (nMax plate fiber mjd) mjd.toSeq, ?_, ?_, ?_, ?_, ?_⟩
    · unfold format_args_into_iterables
      rw [if_pos ⟨hp, hf, hm⟩]
    · exact broadcastTo_length ..
    · exact broadcastTo_length ..
    · exact broadcastTo_length ..
    · intro i hi
      exact ⟨broadcastTo_getElem? _ _ hp i hi,
        broadcastTo_getElem? _ _ hf i hi,
        broadcastTo_getElem? _ _ hm i hi⟩
  · intro hmis
    unfold format_args_into_iterables
    rw [if_neg]
    rintro ⟨hp, hf, hm⟩
    rcases hmis with ⟨a1, a2, a3⟩ | ⟨a1, a2, a3⟩ | ⟨a1, a2, a3⟩ <;> omega

/-- C8 witness: the broadcast shape `(scalar, length-3, length-3)`
normalizes to three aligned triples, and the mismatched shape
`(length-2, length-3, scalar)` fails with the shape error. -/
theorem c8_normalization_broadcast_witness :
    (∃ lp lf lm,
      format_args_into_iterables (PyArg.scalar 1) (PyArg.seq [7, 8, 9])
          (PyArg.seq [4, 5, 6]) =
        .ok (lp, lf, lm,
          nMax (PyArg.scalar 1) (PyArg.seq [7, 8, 9]) (PyArg.seq [4, 5, 6])) ∧
      lp.length =
        nMax (PyArg.scalar 1) (PyArg.seq [7, 8, 9]) (PyArg.seq [4, 5, 6]) ∧
      lf.length =
        nMax (PyArg.scalar 1) (PyArg.seq [7, 8, 9]) (PyArg.seq [4, 5, 6]) ∧
      lm.length =
        nMax (PyArg.scalar 1) (PyArg.seq [7, 8, 9]) (PyArg.seq [4, 5, 6]) ∧
      (∀ i : Nat,
        i < nMax (PyArg.scalar 1) (PyArg.seq [7, 8, 9]) (PyArg.seq [4, 5, 6]) →
        lp[i]? = (if (PyArg.scalar 1).toSeq.length = 1
          then (PyArg.scalar 1).toSeq[0]? else (PyArg.scalar 1).toSeq[i]?) ∧
        lf[i]? = (if (PyArg.seq [7, 8, 9]).toSeq.length = 1
          then (PyArg.seq [7, 8, 9]).toSeq[0]?
          else (PyArg.seq [7, 8, 9]).toSeq[i]?) ∧
        lm[i]? = (if (PyArg.seq [4, 5, 6]).toSeq.length = 1
          then (PyArg.seq [4, 5, 6]).toSeq[0]?
          else (PyArg.seq [4, 5, 6]).toSeq[i]?))) ∧
    format_args_into_iterables (PyArg.seq [1, 2]) (PyArg.seq [7, 8, 9])
        (PyArg.scalar 5) = .error () :=
  ⟨(c8_normalization_broadcast (PyArg.scalar 1) (PyArg.seq [7, 8, 9])
      (PyArg.seq [4, 5, 6])).1 (by decide) (by decide) (by decide),
    (c8_normalization_broadcast (PyArg.seq [1, 2]) (PyArg.seq [7, 8, 9])
      (PyArg.scalar 5)).2 (by decide)⟩

/-! ## Claim C9 -/

/-- C9: the decode transform.  For every payload with columns
`(logWavelength, flux, ivar)`, `_translate_hdul` returns
`wavelength[i] = 10 ** logWavelength[i]` (the external scalar kernel
`pow10` applied elementwise), the flux column unchanged, and
`uncertainty[i] = ivar[i] ** -0.5` exactly when `ivar[i] > 0` and NaN
when `ivar[i] ≤ 0`; it is a total function — non-positive `ivar` entries
are replaced by NaN before the power, which propagates NaN instead of
raising. -/
theorem c9_translate_hdul_columns (pow10 powNegHalf : ℚ → ℚ)
    (loglam flux ivar : List ℚ) :
    (∀ i : Nat, (translate_hdul pow10 powNegHalf loglam flux ivar).1[i]? =
        loglam[i]?.map pow10) ∧
    (translate_hdul pow10 powNegHalf loglam flux ivar).2.1 = flux ∧
    (∀ i : Nat, (translate_hdul pow10 powNegHalf loglam flux ivar).2.2[i]? =
        ivar[i]?.map fun v =>
          if 0 < v then NpVal.num (powNegHalf v) else NpVal.nan) ∧
    (translate_hdul pow10 powNegHalf loglam flux ivar).2.2.length =
      ivar.length := by
  refine ⟨fun i => ?_, rfl, fun i => ?_, ?_⟩
  · simp [translate_hdul, List.getElem?_map]
  · simp only [translate_hdul, powNegHalfArr, wherePos, List.map_map,
      List.getElem?_map]
    cases h : ivar[i]? with
    | none => rfl
    | some v =>
      simp only [Option.map_some', Function.comp]
      by_cases hv : 0 < v <;> simp [hv]
  · simp [translate_hdul, powNegHalfArr, wherePos]

/-! ## Claim C10 -/

/-- C10: unresolvable keys share one cache file.  For any two keys whose
URL resolution is a (memoized) miss, the cache hash is `None` for both,
both the read path and the write path build the same fixed file name
`"None.h5"`, and a cache write performed for the first key is returned
as a cache hit for the second key. -/
theorem c10_null_hash_keys_share_cache_file {Data : Type} (env : Env Data)
    (k1 k2 : Key) (d : Data) (st : St Data)
    (h1 : st.urlMemo.lookup k1 = some none)
    (h2 : st.urlMemo.lookup k2 = some none)
    (hfile : st.files.lookup (cacheFileName none) = none) :
    (create_cache_hash env k1 st).1 = none ∧
    (create_cache_hash env k2 st).1 = none ∧
    cacheFileName (create_cache_hash env k1 st).1 = "None.h5" ∧
    cacheFileName (create_cache_hash env k2 st).1 = "None.h5" ∧
    (get_from_cache env k2 (add_to_cache env k1 d st)).1 = some d := by
  have hg1 := getUrl_memo_hit env k1 st none h1
  have hg2 := getUrl_memo_hit env k2 st none h2
  have hc1 : (create_cache_hash env k1 st).1 = none := by
    simp [create_cache_hash_eq, hg1]
  have hc2 : (create_cache_hash env k2 st).1 = none := by
    simp [create_cache_hash_eq, hg2]
  have hadd := add_to_cache_miss_files env k1 d st none h1 hfile
  have hmadd : (add_to_cache env k1 d st).urlMemo.lookup k2 = some none := by
    rw [hadd.1]; exact h2
  have hgadd := getUrl_memo_hit env k2 (add_to_cache env k1 d st) none hmadd
  refine ⟨hc1, hc2, by rw [hc1]; rfl, by rw [hc2]; rfl, ?_⟩
  rw [get_from_cache_eq, hgadd]
  simp [hadd.2, lookup_cons_self]

/-- C10 witness: in `stTwoMisses` both `(1, 2, 3)` and `(4, 5, 6)` are
memoized misses; both hash to `None`, both build `"None.h5"`, and a write
of payload `9` for the first key is served back as a hit for the
second. -/
theorem c10_null_hash_keys_share_cache_file_witness :
    (create_cache_hash envMiss (1, 2, 3) stTwoMisses).1 = none ∧
    (create_cache_hash envMiss (4, 5, 6) stTwoMisses).1 = none ∧
    cacheFileName (create_cache_hash envMiss (1, 2, 3) stTwoMisses).1 =
      "None.h5" ∧
    cacheFileName (create_cache_hash envMiss (4, 5, 6) stTwoMisses).1 =
      "None.h5" ∧
    (get_from_cache envMiss (4, 5, 6)
        (add_to_cache envMiss (1, 2, 3) 9 stTwoMisses)).1 = some 9 :=
  c10_null_hash_keys_share_cache_file envMiss (1, 2, 3) (4, 5, 6) 9
    stTwoMisses (by decide) (by decide) (by decide)

end SDSSRetriever
